import Mathlib

/-
Shallow embedding of the per-mote protocol engine of the 6TiSCH
slotbonding GA simulator (simulator/SimEngine/Mote.py), restricted to the
functions the verified claims are about:

  * `_tsch_enqueue`, `getTxCells`, `getSharedCells`  (TSCH queue discipline)
  * `_tsch_resetBroadcastBackoff`, `_tsch_resetBackoffPerNeigh` and the
    backoff-reset dispatch of `radio_txDone`                  (backoff)
  * `getCellPDR`, `_estimateETX`, `_rpl_calcRankIncrease`     (link metrics)
  * `_msf_get_sixtop_timeout`, `_msf_action_parent_change`    (MSF)
  * `_sixtop_removeCells` (worst-cell selection), `_sixtop_receive_RESPONSE`
    (WAIT_ADDRESPONSE arm), `_sixtop_timer_fired`             (6top)

Modelling conventions:
  * Python floats are modelled as exact rationals (`ℚ`); Python ints that
    may go negative as `ℤ`, counters and identifiers as `ℕ`.
  * Python dicts are modelled as association lists (iteration order of a
    concrete dict is the list order); mote references are mote ids (`ℕ`).
  * A failing `assert` (which aborts the whole simulation process) is
    modelled by an explicit failure constructor or by `Option.none`.
  * Logging and statistics calls that do not influence the modelled state
    are elided.
Leading underscores of Python method names are dropped.
-/

namespace MoteSim

/-! ### Constants (Mote.py, "defines" block) -/

def NUM_SUFFICIENT_TX : Nat := 10

def TSCH_QUEUE_SIZE : Nat := 10

def TSCH_MAXTXRETRIES : Nat := 4

def MSF_DEFAULT_SIXTOP_TIMEOUT : ℚ := 15

def MSF_6PTIMEOUT_SEC_FACTOR : ℚ := 5

def MSF_MAX_OLD_PARENT_REMOVAL : Nat := 1

def RPL_MIN_HOP_RANK_INCREASE : ℤ := 256

/-! ### Basic data model -/

/-- Packet types (`APP_TYPE_*`, `RPL_TYPE_*`, `TSCH_TYPE_EB`, `IANA_6TOP_TYPE_*`). -/
inductive PType where
  | data | ack | join | frag | dio | dao | eb | sixpRequest | sixpResponse
  deriving DecidableEq, Repr

/-- Cell direction (`DIR_TX`, `DIR_RX`, `DIR_TXRX_SHARED`). -/
inductive Dir where
  | tx | rx | shared
  deriving DecidableEq, Repr

/-- A cell's peer: a unicast neighbor (a mote id) or the broadcast
neighbor list used by minimal cells. -/
inductive Peer where
  | uni (id : Nat)
  | broadcast
  deriving DecidableEq, Repr

/-- One schedule entry of `self.schedule` (keyed by its timeslot `ts`).
`history` records one entry per transmission outcome (1 = counted as
delivered, 0 = not). Fields not used by the modelled functions
(channel-debug lists, modulation string, ...) are elided. -/
structure Cell where
  ts : Nat
  ch : Nat
  dir : Dir
  peer : Peer
  parentTs : Nat
  numTx : Nat
  numTxAck : Nat
  history : List Nat
  deriving DecidableEq, Repr

/-- A TSCH-queue packet. Only the fields inspected by the modelled
functions are kept (`_tsch_enqueue` looks at `type` only; payload,
addresses and `retriesLeft` are elided). -/
structure Packet where
  ptype : PType
  deriving DecidableEq, Repr

/-- Scheduling-function selector (`settings.sf`). -/
inductive SF where
  | msf | ellsf | ilp
  deriving DecidableEq, Repr

/-- The configuration fields read by the modelled functions. -/
structure Settings where
  sf : SF
  backoffMinExp : Int
  minCellsMSF : Nat
  slotframeLength : Nat
  slotDuration : ℚ
  sixtopRemoveRandomCell : Bool
  individualModulations : Bool
  deriving DecidableEq, Repr

/-- The slice of a `Mote` object's state read or written by the modelled
functions. `PDR` is the static per-neighbor link PDR map (`self.PDR`),
`numCellsToNeighbors` the dedicated-cell counter map. -/
structure Mote where
  settings : Settings
  schedule : List Cell
  txQueue : List Packet
  PDR : List (Nat × ℚ)
  numCellsToNeighbors : List (Nat × Nat)
  preferredParent : Option Nat
  oldPreferredParent : Option Nat
  currentOldPrefParentRemoval : Nat
  droppedNoRoute : Nat
  droppedNoTxCells : Nat
  droppedQueueFull : Nat
  deriving DecidableEq, Repr

/-- Function `getPDR(neighbor)`: static link PDR lookup. (A missing key would be a
`KeyError` in the source; every modelled call site supplies a present
key, so the default `0` is never exercised by the theorems below.) -/
def getPDR (m : Mote) (neighbor : Nat) : ℚ :=
  (m.PDR.lookup neighbor).getD 0

/-! ### Rounding helpers (Python `math.ceil`, `math.floor`, `int(...)`) -/

/-- Python `math.ceil` on an exact rational, as an integer. -/
def ratCeil (q : ℚ) : ℤ :=
  -Rat.floor (-q)

/-- Python `int(...)` applied to a float: truncation toward zero. -/
def ratTrunc (q : ℚ) : ℤ :=
  q.num.tdiv (q.den : ℤ)

/-! ### TSCH: cell getters and the enqueue discipline -/

/-- Function `getTxCells()` (no-neighbor form): `(ts, ch, neighbor)` of every TX cell. -/
def getTxCells (m : Mote) : List (Nat × Nat × Peer) :=
  (m.schedule.filter (fun c => c.dir = Dir.tx)).map (fun c => (c.ts, c.ch, c.peer))

/-- Function `getSharedCells()` (no-neighbor form). -/
def getSharedCells (m : Mote) : List (Nat × Nat × Peer) :=
  (m.schedule.filter (fun c => c.dir = Dir.shared)).map (fun c => (c.ts, c.ch, c.peer))

/-- Result of `_tsch_enqueue`: the returned boolean together with the
updated mote, or a failing `assert` (which aborts the simulation) with
the mote state at the moment of the abort. -/
inductive EnqResult where
  | ok (accepted : Bool) (m : Mote)
  | assertFail (m : Mote)
  deriving DecidableEq, Repr

/-- Method `_tsch_enqueue(packet)`. `hasRoute` stands for the boolean outcome of
the `self._rpl_addNextHop(packet)` call (that helper only fills in the
packet's `nextHop` field, which the queue discipline never reads). -/
def tsch_enqueue (m : Mote) (hasRoute : Bool) (pkt : Packet) : EnqResult :=
  if !hasRoute then
    .ok false { m with droppedNoRoute := m.droppedNoRoute + 1 }
  else if (getTxCells m).isEmpty && (getSharedCells m).isEmpty then
    -- "I don't have any transmit cells"
    let m1 := { m with droppedNoTxCells := m.droppedNoTxCells + 1 }
    if m.settings.sf ≠ SF.ilp then .assertFail m1 else .ok false m1
  else if TSCH_QUEUE_SIZE ≤ m.txQueue.length then
    -- queue full: JOIN / DAO / 6P frames may still enter once per type
    if pkt.ptype = PType.join ∨ pkt.ptype = PType.dao ∨
        pkt.ptype = PType.sixpRequest ∨ pkt.ptype = PType.sixpResponse then
      if m.txQueue.any (fun p => p.ptype = pkt.ptype) then
        .ok false { m with droppedQueueFull := m.droppedQueueFull + 1 }
      else
        .ok true { m with txQueue := m.txQueue ++ [pkt] }
    else
      .ok false { m with droppedQueueFull := m.droppedQueueFull + 1 }
  else
    .ok true { m with txQueue := m.txQueue ++ [pkt] }

/-! ### TSCH: backoff state and the reset helpers -/

/-- The broadcast and per-neighbor backoff generators
(`self.backoffBroadcast`, `self.backoffBroadcastExponent`,
`self.backoffPerNeigh`, `self.backoffExponentPerNeigh`). The per-neighbor
dicts are modelled as total maps over mote ids. -/
structure BackoffState where
  backoffBroadcast : Nat
  backoffBroadcastExponent : Int
  backoffPerNeigh : Nat → Nat
  backoffExponentPerNeigh : Nat → Int

/-- Method `_tsch_resetBroadcastBackoff()`. The source hardcodes the exponent to
`2 - 1` (the `settings.backoffMinExp - 1` variant is commented out). -/
def tsch_resetBroadcastBackoff (s : BackoffState) : BackoffState :=
  { s with backoffBroadcast := 0, backoffBroadcastExponent := 2 - 1 }

/-- Method `_tsch_resetBackoffPerNeigh(neigh)`. -/
def tsch_resetBackoffPerNeigh (settings : Settings) (s : BackoffState) (neigh : Nat) :
    BackoffState :=
  { s with
    backoffPerNeigh := fun n => if n = neigh then 0 else s.backoffPerNeigh n
    backoffExponentPerNeigh := fun n =>
      if n = neigh then settings.backoffMinExp - 1 else s.backoffExponentPerNeigh n }

/-- The backoff-reset dispatch executed by `radio_txDone` after a
successful ACK (and, with the same condition, after a NACK): reset when
the slot is SHARED, or when it is TX and the queue has become empty;
a SHARED slot with a unicast peer resets the per-neighbor generator,
every other resetting case resets the broadcast generator. -/
def radio_txDone_backoffReset (settings : Settings) (s : BackoffState)
    (cellDir : Dir) (cellPeer : Peer) (txQueueEmpty : Bool) : BackoffState :=
  if cellDir = Dir.shared ∨ (cellDir = Dir.tx ∧ txQueueEmpty) then
    match cellPeer with
    | Peer.uni n =>
      if cellDir = Dir.shared then tsch_resetBackoffPerNeigh settings s n
      else tsch_resetBroadcastBackoff s
    | Peer.broadcast => tsch_resetBroadcastBackoff s
  else s

/-! ### Link metrics: `getCellPDR`, `_estimateETX`, `_rpl_calcRankIncrease` -/

/-- Method `getCellPDR(cell)`: static link PDR until `NUM_SUFFICIENT_TX`
transmissions have been observed on the cell, the observed ACK ratio
afterwards. (All modelled call sites pass unicast cells; the broadcast
arm mirrors the source's unreachable `getPDR` call on a list.) -/
def getCellPDR (m : Mote) (cell : Cell) : ℚ :=
  if cell.numTx < NUM_SUFFICIENT_TX then
    match cell.peer with
    | Peer.uni n => getPDR m n
    | Peer.broadcast => 0
  else (cell.numTxAck : ℚ) / (cell.numTx : ℚ)

/-- The cells `_estimateETX` aggregates: TX or SHARED cells to `neighbor`. -/
def etxCells (m : Mote) (neighbor : Nat) : List Cell :=
  m.schedule.filter (fun c =>
    (c.peer = Peer.uni neighbor ∧ c.dir = Dir.tx) ∨
    (c.peer = Peer.uni neighbor ∧ c.dir = Dir.shared))

/-- Method `_estimateETX(neighbor)`: starts from `numTx = NUM_SUFFICIENT_TX`
pseudo-transmissions with `numTxAck = floor(pdr * numTx)` pseudo-ACKs
derived from the static link PDR, adds the observed counters of every TX
or SHARED cell to the neighbor, and returns `numTx / numTxAck`; `none`
models the bare `return` when the accumulated `numTxAck` is zero. -/
def estimateETX (m : Mote) (neighbor : Nat) : Option ℚ :=
  let pdr := getPDR m neighbor
  let numTx : ℤ := (NUM_SUFFICIENT_TX : ℤ) + ((etxCells m neighbor).map (fun c => (c.numTx : ℤ))).sum
  let numTxAck : ℤ := Rat.floor (pdr * (NUM_SUFFICIENT_TX : ℚ)) +
    ((etxCells m neighbor).map (fun c => (c.numTxAck : ℤ))).sum
  if numTxAck = 0 then none
  else some ((numTx : ℚ) / (numTxAck : ℚ))

/-- Method `_rpl_calcRankIncrease(neighbor)`:
`int((3*ETX - 2) * RPL_MIN_HOP_RANK_INCREASE)`; `none` models the bare
`return` when the ETX estimate is unavailable (the `if not etx` guard
also treats an ETX of exactly 0 as unavailable). -/
def rpl_calcRankIncrease (m : Mote) (neighbor : Nat) : Option ℤ :=
  match estimateETX m neighbor with
  | none => none
  | some etx =>
    if etx = 0 then none
    else some (ratTrunc ((3 * etx - 2) * (RPL_MIN_HOP_RANK_INCREASE : ℚ)))

/-! ### MSF: 6top timeout and the parent-change action -/

/-- The per-cell PDR list `_msf_get_sixtop_timeout` collects: one
`getCellPDR` value for every TX or SHARED cell to `neighbor`. -/
def sixtopTimeoutCellPDRs (m : Mote) (neighbor : Nat) : List ℚ :=
  (m.schedule.filter (fun c =>
    (c.peer = Peer.uni neighbor ∧ c.dir = Dir.tx) ∨
    (c.dir = Dir.shared ∧ c.peer = Peer.uni neighbor))).map (getCellPDR m)

/-- Method `_msf_get_sixtop_timeout(neighbor)`. `none` models the failing
`assert meanPDR <= 1.0`. -/
def msf_get_sixtop_timeout (m : Mote) (neighbor : Nat) : Option ℚ :=
  let cellPDR := sixtopTimeoutCellPDRs m neighbor
  if 0 < cellPDR.length then
    let meanPDR := cellPDR.sum / (cellPDR.length : ℚ)
    if meanPDR < 1 / 100000 then some MSF_DEFAULT_SIXTOP_TIMEOUT
    else if meanPDR ≤ 1 then
      some ((ratCeil (((m.settings.slotframeLength : ℚ) * m.settings.slotDuration /
        (cellPDR.length : ℚ)) * (1 / meanPDR) * MSF_6PTIMEOUT_SEC_FACTOR) : ℤ))
    else none
  else some MSF_DEFAULT_SIXTOP_TIMEOUT

/-- Lookup `self.numCellsToNeighbors.get(key, default)` where the key may be a
mote or `None` (Python's `dict.get` falls back to the default only when
the key is absent; `None` is never a key of the counter map). -/
def getCellCount (counts : List (Nat × Nat)) (key : Option Nat) (dflt : Nat) : Nat :=
  match key with
  | none => dflt
  | some id => (counts.lookup id).getD dflt

/-- The 6top operation issued by one run of `_msf_action_parent_change`. -/
inductive MsfParentChangeOp where
  | addTo (neighbor : Nat) (numCells : Nat)
  | removeFrom (neighbor : Nat) (numCells : Nat)
  | noop
  deriving DecidableEq, Repr

/-- The decision logic of `_msf_action_parent_change()`: which 6top
request (if any) this run issues. `none` models the failing
`assert self.preferredParent`. The re-scheduling of the action and the
old-parent invalidation that follow are not part of the modelled
decision. -/
def msf_action_parent_change_op (m : Mote) : Option MsfParentChangeOp :=
  match m.preferredParent with
  | none => none
  | some pref =>
    if getCellCount m.numCellsToNeighbors (some pref) 0 = 0 then
      some (MsfParentChangeOp.addTo pref
        (getCellCount m.numCellsToNeighbors m.oldPreferredParent m.settings.minCellsMSF))
    else
      match m.oldPreferredParent with
      | some old =>
        if m.currentOldPrefParentRemoval < MSF_MAX_OLD_PARENT_REMOVAL ∧
            0 < getCellCount m.numCellsToNeighbors (some old) 0 ∧
            0 < getCellCount m.numCellsToNeighbors (some pref) 0 then
          some (MsfParentChangeOp.removeFrom old (getCellCount m.numCellsToNeighbors (some old) 0))
        else some MsfParentChangeOp.noop
      | none => some MsfParentChangeOp.noop

/-! ### TSCH: cell-statistics updates of `radio_txDone` -/

/-- The delivery-statistics update `radio_txDone` applies to the active
cell when the frame was ACKed:
`numTxAck += 1; history += [1]` (lines 3621-3624). -/
def radio_txDone_ack_cellStats (c : Cell) : Cell :=
  { c with numTxAck := c.numTxAck + 1, history := c.history ++ [1] }

/-- The delivery-statistics update `radio_txDone` applies to the active
cell when the frame was NACKed: the source "update[s] schedule stats as
if it were successfully transmitted",
`numTxAck += 1; history += [1]` (lines 3727-3730). -/
def radio_txDone_nack_cellStats (c : Cell) : Cell :=
  { c with numTxAck := c.numTxAck + 1, history := c.history ++ [1] }

/-! ### 6top: worst-cell selection of `_sixtop_removeCells` -/

/-- One entry of the `scheduleList` built by `_sixtop_removeCells`: the
tuple `(ts, numTxAck, numTx, cellPDR)`. -/
structure RemovalEntry where
  ts : Nat
  numTxAck : Nat
  numTx : Nat
  pdr : ℚ
  deriving DecidableEq, Repr

/-- Ascending `numTx` order on removal entries (Python
`sorted(..., key=lambda x: x[2])`). -/
def numTxLe (a b : RemovalEntry) : Prop := a.numTx ≤ b.numTx

/-- Descending `numTx` order on removal entries (Python
`sorted(..., key=lambda x: x[2], reverse=True)`). -/
def numTxGe (a b : RemovalEntry) : Prop := b.numTx ≤ a.numTx

instance : DecidableRel numTxLe := fun a b => Nat.decLe a.numTx b.numTx

instance : DecidableRel numTxGe := fun a b => Nat.decLe b.numTx a.numTx

instance : IsTotal RemovalEntry numTxLe := ⟨fun a b => Nat.le_total a.numTx b.numTx⟩

instance : IsTrans RemovalEntry numTxLe := ⟨fun _ _ _ h h2 => Nat.le_trans h h2⟩

instance : IsTotal RemovalEntry numTxGe := ⟨fun a b => Nat.le_total b.numTx a.numTx⟩

instance : IsTrans RemovalEntry numTxGe := ⟨fun _ _ _ h h2 => Nat.le_trans h2 h⟩

/-- The candidate list of `_sixtop_removeCells(neighbor, ...)`: every TX
or SHARED cell to `neighbor` whose timeslot is its own parent timeslot,
paired with its counters and observed PDR, in schedule order. -/
def removeCandidates (m : Mote) (neighbor : Nat) : List RemovalEntry :=
  (m.schedule.filter (fun c => c.parentTs = c.ts ∧
    ((c.peer = Peer.uni neighbor ∧ c.dir = Dir.tx) ∨
     (c.dir = Dir.shared ∧ c.peer = Peer.uni neighbor)))).map
    (fun c => ⟨c.ts, c.numTxAck, c.numTx, getCellPDR m c⟩)

/-- The distinct observed-PDR values of the candidate list, ascending
(`sorted(scheduleListByPDR.keys())`). -/
def pdrKeys (l : List RemovalEntry) : List ℚ :=
  List.insertionSort (· ≤ ·) (l.map RemovalEntry.pdr).dedup

/-- The worst-cell ordering of `_sixtop_removeCells` when
`sixtopRemoveRandomCell` is unset: entries grouped by observed PDR,
groups in ascending PDR order; a group strictly below the theoretical
link PDR is ordered by descending `numTx`, a group at or above it by
ascending `numTx` (both sorts stable in the source; `insertionSort` is
stable too). -/
def worstCellOrdering (theoPDR : ℚ) (l : List RemovalEntry) : List RemovalEntry :=
  (pdrKeys l).flatMap (fun k =>
    if k < theoPDR then List.insertionSort numTxGe (l.filter (fun e => e.pdr = k))
    else List.insertionSort numTxLe (l.filter (fun e => e.pdr = k)))

/-- Method `_sixtop_removeCells(neighbor, numCellsToRemove, ...)` restricted to
the `sixtopRemoveRandomCell`-unset configuration (the random branch
shuffles instead): the timeslots handed to
`_sixtop_cell_deletion_sender`, i.e. the first `numCellsToRemove`
timeslots of the worst-cell ordering; `none` models the failing
`assert len(tsList) == numCellsToRemove`. -/
def sixtop_removeCells_worst (m : Mote) (neighbor : Nat) (numCellsToRemove : Nat) :
    Option (List Nat) :=
  let scheduleList := worstCellOrdering (getPDR m neighbor) (removeCandidates m neighbor)
  let tsList := (scheduleList.take numCellsToRemove).map RemovalEntry.ts
  if tsList.length = numCellsToRemove then some tsList else none

/-! ### 6top: transaction contexts, the ADD-response handler, the timer -/

/-- The 6top half-context states (`SIX_STATE_*`); only the states the
modelled functions mention are kept. -/
inductive SixState where
  | idle
  | sendingRequest
  | waitAddRequestSenddone
  | waitAddResponse
  | waitDeleteRequestSenddone
  | waitDeleteResponse
  deriving DecidableEq, Repr

/-- A pending 6top timeout timer (`sixtopStates[n]['tx']['timer']`):
the ASN it is scheduled to fire at (the unique tag is determined by the
mote/neighbor pair and is elided). -/
structure SixTimer where
  asn : Nat
  deriving DecidableEq, Repr

/-- The initiator (tx) half-context `sixtopStates[n]['tx']`. -/
structure TxHalfCtx where
  state : SixState
  seqNum : Nat
  blockedCells : List (Nat × Nat × Dir)
  timer : Option SixTimer
  deriving DecidableEq, Repr

/-- The 6P return codes (`IANA_6TOP_RC_*`); only the ones the ADD-response
handler distinguishes are kept. -/
inductive Rc where
  | success | nores | busy | reset
  deriving DecidableEq, Repr

/-- Direction flip applied to a received cell list (`newDir`). -/
def flipDir : Dir → Dir
  | Dir.tx => Dir.rx
  | Dir.rx => Dir.tx
  | Dir.shared => Dir.shared

/-- Outcome of the ADD-response handler: the returned boolean, the
updated tx half-context, and the `(ts, ch, dir)` cells added to the
mote's own schedule. -/
structure AddRespOutcome where
  result : Bool
  ctx : TxHalfCtx
  installedCells : List (Nat × Nat × Dir)
  deriving DecidableEq, Repr

/-- The `state == SIX_STATE_WAIT_ADDRESPONSE` arm of
`_sixtop_receive_RESPONSE(type, code, smac, payload)`. `recvCells`,
`recvDir` and `seq` are the payload fields; `now` is the current ASN;
`individualModulations`/`modSlots` control the multi-slot expansion of
installed cells. `none` models an aborting run: the entry
`assert code in {SUCCESS, NORES, RESET}` or the `KeyError` raised by
`['timer']` when no timer record exists. Counter updates
(`numCellsToNeighbors` etc.), convergence bookkeeping and the engine's
`removeEvent` call are elided: they do not touch the context fields the
handler returns. -/
def sixtop_receive_RESPONSE_add (ctx : TxHalfCtx) (code : Rc)
    (recvCells : List (Nat × Nat × Dir)) (recvDir : Dir) (seq : Nat) (now : Nat)
    (individualModulations : Bool) (modSlots : Nat) : Option AddRespOutcome :=
  if ¬(code = Rc.success ∨ code = Rc.nores ∨ code = Rc.reset) then none
  else if seq ≠ ctx.seqNum then
    -- seqNum mismatch: transaction failed, ignore packet
    some ⟨false, { ctx with state := SixState.idle, blockedCells := [] }, []⟩
  else
    match ctx.timer with
    | none => none
    | some t =>
      if t.asn = now then
        -- the timeout is scheduled for this very ASN: too late, ignore packet
        some ⟨false, { ctx with state := SixState.idle, blockedCells := [] }, []⟩
      else
        let ctx1 : TxHalfCtx := { ctx with timer := none, seqNum := ctx.seqNum + 1 }
        if code = Rc.success then
          let newDir := flipDir recvDir
          let installed :=
            if individualModulations then
              recvCells.flatMap (fun c =>
                (List.range modSlots).map (fun i => (c.1 + i, c.2.1, newDir)))
            else recvCells.map (fun c => (c.1, c.2.1, newDir))
          some ⟨true, { ctx1 with state := SixState.idle, blockedCells := [] }, installed⟩
        else
          some ⟨true, { ctx1 with state := SixState.idle, blockedCells := [] }, []⟩

/-- Method `_sixtop_timer_fired()`: every neighbor entry of `self.sixtopStates`
whose tx half-context (when present) holds a timer scheduled for the
current ASN is reset to IDLE with its blocked cells released and its
timer record deleted; if no entry matches, the closing
`assert False` aborts (modelled by `none`). -/
def timerMatches (now : Nat) (octx : Option TxHalfCtx) : Bool :=
  match octx with
  | some ctx =>
    match ctx.timer with
    | some t => t.asn = now
    | none => false
  | none => false

/-- The reset applied to a matching tx half-context by
`_sixtop_timer_fired`. -/
def timerFiredReset (ctx : TxHalfCtx) : TxHalfCtx :=
  { ctx with state := SixState.idle, blockedCells := [], timer := none }

def sixtop_timer_fired (now : Nat) (states : List (Nat × Option TxHalfCtx)) :
    Option (List (Nat × Option TxHalfCtx)) :=
  let states1 := states.map (fun p =>
    if timerMatches now p.2 then
      (p.1, (p.2.map timerFiredReset : Option TxHalfCtx))
    else p)
  if states.any (fun p => timerMatches now p.2) then some states1 else none

/-! ### Definitions written from the spec's words, for refutation only -/

/-- The 6top timeout as the claim states it: `MSF_DEFAULT_SIXTOP_TIMEOUT`
when there are no cells or the mean cell PDR is zero, the ceiling formula
otherwise. (Spec-words definition, to be compared with
`msf_get_sixtop_timeout` above, which tests `meanPDR < 0.00001`.) -/
def msf_get_sixtop_timeout_claim (m : Mote) (neighbor : Nat) : ℚ :=
  let cellPDR := sixtopTimeoutCellPDRs m neighbor
  let meanPDR := cellPDR.sum / (cellPDR.length : ℚ)
  if cellPDR.length = 0 ∨ meanPDR = 0 then MSF_DEFAULT_SIXTOP_TIMEOUT
  else ((ratCeil (((m.settings.slotframeLength : ℚ) * m.settings.slotDuration /
    (cellPDR.length : ℚ)) * (1 / meanPDR) * MSF_6PTIMEOUT_SEC_FACTOR) : ℤ) : ℚ)

/-- The order the worst-performer removal policy actually realizes:
strictly increasing observed PDR between groups (so every
below-theoretical cell precedes every at-or-above one); inside a group
of equal observed PDR, numTx is descending for groups strictly below the
theoretical link PDR and ascending for groups at or above it. -/
def worstOrderRel (theoPDR : ℚ) (a b : RemovalEntry) : Prop :=
  a.pdr < b.pdr ∨ (a.pdr = b.pdr ∧
    ((a.pdr < theoPDR ∧ b.numTx ≤ a.numTx) ∨ (theoPDR ≤ a.pdr ∧ a.numTx ≤ b.numTx)))

/-! ### Concrete states used by witnesses and counterexamples -/

/-- A default settings record: `sf = msf`, `backoffMinExp = 2`,
`minCellsMSF = 1`, `slotframeLength = 101`, `slotDuration = 0.01 s`. -/
def settings0 : Settings :=
  ⟨SF.msf, 2, 1, 101, 1 / 100, false, false⟩

def pktDATA : Packet := ⟨PType.data⟩

def pktDAO : Packet := ⟨PType.dao⟩

/-- A dedicated TX cell to neighbor 1 with no observed traffic. -/
def cellTx3 : Cell := ⟨3, 0, Dir.tx, Peer.uni 1, 3, 0, 0, []⟩

/-- An RX cell (provides no transmit opportunity). -/
def cellRx7 : Cell := ⟨7, 2, Dir.rx, Peer.uni 1, 7, 0, 0, []⟩

/-- A mote whose TX queue holds `TSCH_QUEUE_SIZE` DATA packets. -/
def moteFullQueue : Mote :=
  ⟨settings0, [cellTx3], List.replicate TSCH_QUEUE_SIZE pktDATA,
    [(1, 1 / 2)], [(1, 1)], some 1, none, 0, 0, 0, 0⟩

/-- A mote (under `sf = msf`) with neither TX nor SHARED cells. -/
def moteNoTxCells : Mote :=
  ⟨settings0, [cellRx7], [], [(1, 1 / 2)], [], some 1, none, 0, 0, 0, 0⟩

/-- Mote `moteNoTxCells` under the `ilp` scheduling function. -/
def moteNoTxCellsIlp : Mote :=
  { moteNoTxCells with settings := { settings0 with sf := SF.ilp } }

/-- A TX cell to neighbor 1 whose observed ratio (20 tx, 1 ACK-equivalent
in 200000... ): numTx = 200000 with a single ACK, observed PDR 1/200000. -/
def cellLowPdr : Cell := ⟨3, 0, Dir.tx, Peer.uni 1, 3, 200000, 1, []⟩

/-- A mote with a single TX cell of observed PDR `1/200000`: nonzero but
below the source's `0.00001` guard. -/
def moteTinyPdr : Mote :=
  ⟨settings0, [cellLowPdr], [], [(1, 1 / 2)], [], some 1, none, 0, 0, 0, 0⟩

/-- A TX cell to neighbor 1 with 20 observed transmissions, 10 ACKed. -/
def cellHalf : Cell := ⟨3, 0, Dir.tx, Peer.uni 1, 3, 20, 10, []⟩

/-- A mote with static link PDR 1 to neighbor 1 and one TX cell whose
observed ratio is 20/10 = 2. -/
def moteEtx : Mote :=
  ⟨settings0, [cellHalf], [], [(1, 1)], [], some 1, none, 0, 0, 0, 0⟩

/-- A mote in the parent-change situation: new preferred parent 1 with no
cells, old preferred parent 2 with exactly 1 cell, `minCellsMSF = 3`. -/
def moteParentChange : Mote :=
  ⟨{ settings0 with minCellsMSF := 3 }, [], [], [(1, 1 / 2), (2, 1 / 2)],
    [(2, 1)], some 1, some 2, 0, 0, 0, 0⟩

/-- An arbitrary backoff state. -/
def backoff0 : BackoffState := ⟨5, 3, fun _ => 5, fun _ => 3⟩

/-- Settings with `backoffMinExp = 3` (so `backoffMinExp - 1 = 2`). -/
def settingsExp3 : Settings := { settings0 with backoffMinExp := 3 }

/-- Two SHARED cells to neighbor 5, both with observed PDR 1 (at or above
the theoretical link PDR 1/2), with numTx 20 (ts = 1) and 10 (ts = 2). -/
def cellHiTx : Cell := ⟨1, 0, Dir.shared, Peer.uni 5, 1, 20, 20, []⟩

def cellLoTx : Cell := ⟨2, 0, Dir.shared, Peer.uni 5, 2, 10, 10, []⟩

def moteRemove : Mote :=
  ⟨settings0, [cellHiTx, cellLoTx], [], [(5, 1 / 2)], [], some 5, none, 0, 0, 0, 0⟩

/-- A pending ADD transaction context waiting for a response, with a
timer scheduled at ASN 400. -/
def ctxWaitAdd : TxHalfCtx :=
  ⟨SixState.waitAddResponse, 7, [(20, 3, Dir.shared)], some ⟨400⟩⟩

/-- A 6top state table with one matching timer (neighbor 4, ASN 400), one
non-matching (neighbor 6, ASN 500) and one neighbor without a tx context. -/
def statesTimer : List (Nat × Option TxHalfCtx) :=
  [(4, some ⟨SixState.waitAddResponse, 2, [(9, 1, Dir.shared)], some ⟨400⟩⟩),
   (6, some ⟨SixState.waitDeleteResponse, 3, [], some ⟨500⟩⟩),
   (8, none)]

/-! ## Theorems -/

theorem ratCeil_eq_ceil (q : ℚ) : ratCeil q = ⌈q⌉ := by
  rw [ratCeil, show Rat.floor (-q) = ⌊-q⌋ from (Rat.floor_def.trans (Rat.floor_def' _).symm),
    Int.floor_neg, neg_neg]

/-- C1: when the TX queue already holds at least `TSCH_QUEUE_SIZE` (10)
packets (and routing and transmit cells are available), a packet of type
JOIN, DAO, 6P-REQUEST or 6P-RESPONSE is appended and `True` is returned
if and only if no packet of the same type is already queued (the
duplicate case increments `droppedQueueFull` and returns `False`);
every packet of any other type is rejected with `droppedQueueFull`
incremented and `False` returned. -/
theorem tsch_enqueue_queueFull (m : Mote) (pkt : Packet)
    (hcells : ¬((getTxCells m).isEmpty && (getSharedCells m).isEmpty) = true)
    (hfull : TSCH_QUEUE_SIZE ≤ m.txQueue.length) :
    ((pkt.ptype = PType.join ∨ pkt.ptype = PType.dao ∨
        pkt.ptype = PType.sixpRequest ∨ pkt.ptype = PType.sixpResponse) →
      ((∀ p ∈ m.txQueue, p.ptype ≠ pkt.ptype) →
        tsch_enqueue m true pkt =
          EnqResult.ok true { m with txQueue := m.txQueue ++ [pkt] }) ∧
      ((∃ p ∈ m.txQueue, p.ptype = pkt.ptype) →
        tsch_enqueue m true pkt =
          EnqResult.ok false { m with droppedQueueFull := m.droppedQueueFull + 1 })) ∧
    (¬(pkt.ptype = PType.join ∨ pkt.ptype = PType.dao ∨
        pkt.ptype = PType.sixpRequest ∨ pkt.ptype = PType.sixpResponse) →
      tsch_enqueue m true pkt =
        EnqResult.ok false { m with droppedQueueFull := m.droppedQueueFull + 1 }) := by
  constructor
  · intro hctrl
    constructor
    · intro hnone
      have hany : m.txQueue.any (fun p => p.ptype = pkt.ptype) = false := by
        simp only [List.any_eq_false, decide_eq_true_eq]
        exact hnone
      simp [tsch_enqueue, hcells, hfull, hctrl, hany]
    · intro hdup
      have hany : m.txQueue.any (fun p => p.ptype = pkt.ptype) = true := by
        simp only [List.any_eq_true, decide_eq_true_eq]
        exact hdup
      simp [tsch_enqueue, hcells, hfull, hctrl, hany]
  · intro hother
    simp [tsch_enqueue, hcells, hfull, hother]

/-- Witness for C1: `moteFullQueue` holds 10 DATA packets; a DAO packet
is appended once (no DAO is queued yet), while a further DATA packet is
rejected with `droppedQueueFull` incremented. -/
theorem tsch_enqueue_queueFull_witness :
    tsch_enqueue moteFullQueue true pktDAO =
      EnqResult.ok true { moteFullQueue with txQueue := moteFullQueue.txQueue ++ [pktDAO] } ∧
    tsch_enqueue moteFullQueue true pktDATA =
      EnqResult.ok false
        { moteFullQueue with droppedQueueFull := moteFullQueue.droppedQueueFull + 1 } :=
  ⟨((tsch_enqueue_queueFull moteFullQueue pktDAO (by decide) (by decide)).1
      (by decide)).1 (by decide),
   (tsch_enqueue_queueFull moteFullQueue pktDATA (by decide) (by decide)).2 (by decide)⟩

/-- C8 counterexample: a mote under `sf = msf` with no TX and no SHARED
cell does not merely drop the frame and return `False` — after
incrementing `droppedNoTxCells` the `assert False` of `_tsch_enqueue`
aborts the simulation, so the rejection is not a recoverable local drop
under every scheduling-function setting. -/
theorem tsch_enqueue_noTxCells_aborts_counterexample :
    tsch_enqueue moteNoTxCells true pktDATA =
      EnqResult.assertFail
        { moteNoTxCells with droppedNoTxCells := moteNoTxCells.droppedNoTxCells + 1 } :=
  rfl

/-- C8 (amended): a frame offered by a mote with no TX and no SHARED cell
always increments `droppedNoTxCells`; only under the `ilp` scheduling
function is `False` then returned and the simulation continues — under
any other scheduling function the `assert False` aborts. -/
theorem tsch_enqueue_noTxCells (m : Mote) (pkt : Packet)
    (hcells : ((getTxCells m).isEmpty && (getSharedCells m).isEmpty) = true) :
    (m.settings.sf = SF.ilp →
      tsch_enqueue m true pkt =
        EnqResult.ok false { m with droppedNoTxCells := m.droppedNoTxCells + 1 }) ∧
    (m.settings.sf ≠ SF.ilp →
      tsch_enqueue m true pkt =
        EnqResult.assertFail { m with droppedNoTxCells := m.droppedNoTxCells + 1 }) := by
  constructor
  · intro hsf
    simp [tsch_enqueue, hcells, hsf]
  · intro hsf
    simp [tsch_enqueue, hcells, hsf]

/-- Witness for C8 (amended): under `sf = ilp` the same cell-less mote
gets the recoverable drop. -/
theorem tsch_enqueue_noTxCells_witness :
    tsch_enqueue moteNoTxCellsIlp true pktDATA =
      EnqResult.ok false
        { moteNoTxCellsIlp with droppedNoTxCells := moteNoTxCellsIlp.droppedNoTxCells + 1 } :=
  (tsch_enqueue_noTxCells moteNoTxCellsIlp pktDATA (by decide)).1 (by decide)

/-- C9: `radio_txDone` updates the active cell's delivery statistics on a
NACK exactly as on an ACK — `numTxAck` is incremented and a success
entry `1` is appended to the history — so once `NUM_SUFFICIENT_TX`
transmissions are observed the NACKed frame counts as delivered in the
observed per-cell PDR returned by `getCellPDR` (whose numerator is the
`numTxAck` that `_estimateETX` also aggregates). -/
theorem radio_txDone_nack_counts_as_delivered (m : Mote) (c : Cell)
    (h : NUM_SUFFICIENT_TX ≤ c.numTx) :
    radio_txDone_nack_cellStats c = radio_txDone_ack_cellStats c ∧
    (radio_txDone_nack_cellStats c).numTxAck = c.numTxAck + 1 ∧
    (radio_txDone_nack_cellStats c).history = c.history ++ [1] ∧
    getCellPDR m (radio_txDone_nack_cellStats c) =
      ((c.numTxAck : ℚ) + 1) / (c.numTx : ℚ) := by
  refine ⟨rfl, rfl, rfl, ?_⟩
  have hnot : ¬c.numTx < NUM_SUFFICIENT_TX := Nat.not_lt.mpr h
  simp [getCellPDR, radio_txDone_nack_cellStats, hnot]

/-- Witness for C9 at the cell `cellHalf` (20 observed transmissions). -/
theorem radio_txDone_nack_counts_as_delivered_witness :
    getCellPDR moteEtx (radio_txDone_nack_cellStats cellHalf) = (11 : ℚ) / 20 :=
  ((radio_txDone_nack_counts_as_delivered moteEtx cellHalf (by decide)).2.2.2).trans
    (by norm_num [cellHalf])

/-- C10: a run of `_sixtop_timer_fired` returns normally iff some
neighbor's tx half-context holds a timer scheduled for the current ASN
(otherwise `assert False` aborts), and on a normal return every matching
transaction is reset — state IDLE, blocked cells emptied, timer record
deleted — while every other entry is untouched. -/
theorem sixtop_timer_fired_spec (now : Nat) (states : List (Nat × Option TxHalfCtx)) :
    (sixtop_timer_fired now states = none ↔
      ∀ p ∈ states, timerMatches now p.2 = false) ∧
    (∀ res, sixtop_timer_fired now states = some res →
      res.length = states.length ∧
      (∀ i (h1 : i < states.length) (h2 : i < res.length),
        (timerMatches now (states.get ⟨i, h1⟩).2 = true →
          res.get ⟨i, h2⟩ = ((states.get ⟨i, h1⟩).1,
            (states.get ⟨i, h1⟩).2.map timerFiredReset)) ∧
        (timerMatches now (states.get ⟨i, h1⟩).2 = false →
          res.get ⟨i, h2⟩ = states.get ⟨i, h1⟩))) ∧
    (∀ ctx : TxHalfCtx, (timerFiredReset ctx).state = SixState.idle ∧
      (timerFiredReset ctx).blockedCells = [] ∧ (timerFiredReset ctx).timer = none) := by
  refine ⟨?_, ?_, fun ctx => ⟨rfl, rfl, rfl⟩⟩
  · constructor
    · intro hnone p hp
      by_contra hmatch
      have hany : states.any (fun p => timerMatches now p.2) = true :=
        List.any_eq_true.mpr ⟨p, hp, by simpa using hmatch⟩
      simp [sixtop_timer_fired, hany] at hnone
    · intro hall
      have hany : states.any (fun p => timerMatches now p.2) = false := by
        simp only [List.any_eq_false]
        intro p hp
        simp [hall p hp]
      simp [sixtop_timer_fired, hany]
  · intro res hres
    have hany : states.any (fun p => timerMatches now p.2) = true := by
      by_contra hne
      have hf : states.any (fun p => timerMatches now p.2) = false :=
        Bool.eq_false_iff.mpr hne
      simp [sixtop_timer_fired, hf] at hres
    have hres2 : some (states.map (fun p =>
        if timerMatches now p.2 then (p.1, (p.2.map timerFiredReset : Option TxHalfCtx))
        else p)) = some res := by
      rw [← hres]
      simp [sixtop_timer_fired, hany]
    obtain rfl := Option.some.inj hres2
    refine ⟨by simp, ?_⟩
    intro i h1 h2
    constructor
    · intro hm
      simp only [List.get_eq_getElem] at hm
      simp only [List.get_eq_getElem, List.getElem_map]
      simp [hm]
    · intro hm
      simp only [List.get_eq_getElem] at hm
      simp only [List.get_eq_getElem, List.getElem_map]
      simp [hm]

/-- Witness for C10: in `statesTimer` at ASN 400 exactly the entry for
neighbor 4 matches; the run does not abort and resets that entry. -/
theorem sixtop_timer_fired_spec_witness :
    sixtop_timer_fired 400 statesTimer ≠ none ∧
    (sixtop_timer_fired 400 statesTimer =
      some [(4, some ⟨SixState.idle, 2, [], none⟩),
            (6, some ⟨SixState.waitDeleteResponse, 3, [], some ⟨500⟩⟩),
            (8, none)]) := by
  have h := (sixtop_timer_fired_spec 400 statesTimer).1
  constructor
  · intro hnone
    have := h.mp hnone
      (4, some ⟨SixState.waitAddResponse, 2, [(9, 1, Dir.shared)], some ⟨400⟩⟩) (by decide)
    simp [timerMatches] at this
  · decide

/-- C2: an ADD response reaching the initiator (state WAIT_ADDRESPONSE)
at exactly the ASN its timeout timer is scheduled for is discarded
(`False` is returned), the tx state returns to IDLE, the blocked-cells
list is cleared, no cells are installed, and the sequence number is not
advanced (the returned context keeps `ctx.seqNum` and `ctx.timer`). -/
theorem sixtop_add_response_at_timer_asn (ctx : TxHalfCtx) (code : Rc)
    (recvCells : List (Nat × Nat × Dir)) (recvDir : Dir) (seq now : Nat)
    (im : Bool) (modSlots : Nat) (t : SixTimer)
    (_hstate : ctx.state = SixState.waitAddResponse)
    (hcode : code = Rc.success ∨ code = Rc.nores ∨ code = Rc.reset)
    (htimer : ctx.timer = some t) (hasn : t.asn = now) :
    sixtop_receive_RESPONSE_add ctx code recvCells recvDir seq now im modSlots =
      some ⟨false, { ctx with state := SixState.idle, blockedCells := [] }, []⟩ := by
  unfold sixtop_receive_RESPONSE_add
  rw [if_neg (not_not_intro hcode)]
  by_cases hseq : seq = ctx.seqNum
  · rw [if_neg (not_not_intro hseq), htimer]
    simp [hasn]
  · rw [if_pos hseq]

/-- Witness for C2: `ctxWaitAdd` has its timer at ASN 400; a successful
ADD response with matching sequence number arriving at ASN 400 is
dropped and the context is reset to IDLE with no blocked cells. -/
theorem sixtop_add_response_at_timer_asn_witness :
    sixtop_receive_RESPONSE_add ctxWaitAdd Rc.success [(30, 2, Dir.shared)]
        Dir.shared 7 400 false 1 =
      some ⟨false, { ctxWaitAdd with state := SixState.idle, blockedCells := [] }, []⟩ :=
  sixtop_add_response_at_timer_asn ctxWaitAdd Rc.success [(30, 2, Dir.shared)]
    Dir.shared 7 400 false 1 ⟨400⟩ rfl (Or.inl rfl) rfl rfl

/-- C5 counterexample: on a parent change with no cells to the new
preferred parent (mote 1), one cell to the old parent (mote 2) and
`minCellsMSF = 3`, the code requests `numCellsToNeighbors[oldParent] = 1`
cell — not `max(cellsToOldParent, minCellsMSF) = 3` as the claim states,
so the requested count can be below `minCellsMSF`. -/
theorem msf_parent_change_count_counterexample :
    msf_action_parent_change_op moteParentChange =
      some (MsfParentChangeOp.addTo 1 1) ∧
    (1 : Nat) ≠ max 1 moteParentChange.settings.minCellsMSF := by
  constructor
  · rfl
  · decide

/-- C5 (amended): when the MSF parent-change action runs on a mote with
no dedicated cells to its preferred parent, it issues a 6top ADD to the
new parent for `numCellsToNeighbors.get(oldPreferredParent, minCellsMSF)`
cells: the stored cell count of the old preferred parent whenever that
map entry exists (even if smaller than `minCellsMSF`), and `minCellsMSF`
only when it does not (in particular at bootstrap, when there is no old
parent). -/
theorem msf_parent_change_add_count (m : Mote) (pref : Nat)
    (hpref : m.preferredParent = some pref)
    (hzero : getCellCount m.numCellsToNeighbors (some pref) 0 = 0) :
    (m.oldPreferredParent = none →
      msf_action_parent_change_op m =
        some (MsfParentChangeOp.addTo pref m.settings.minCellsMSF)) ∧
    (∀ old, m.oldPreferredParent = some old →
      (∀ cnt, m.numCellsToNeighbors.lookup old = some cnt →
        msf_action_parent_change_op m = some (MsfParentChangeOp.addTo pref cnt)) ∧
      (m.numCellsToNeighbors.lookup old = none →
        msf_action_parent_change_op m =
          some (MsfParentChangeOp.addTo pref m.settings.minCellsMSF))) := by
  have hz : (m.numCellsToNeighbors.lookup pref).getD 0 = 0 := by
    simpa [getCellCount] using hzero
  constructor
  · intro hold
    simp [msf_action_parent_change_op, hpref, hold, getCellCount, hz]
  · intro old hold
    constructor
    · intro cnt hcnt
      simp [msf_action_parent_change_op, hpref, hold, getCellCount, hz, hcnt]
    · intro hcnt
      simp [msf_action_parent_change_op, hpref, hold, getCellCount, hz, hcnt]

/-- Witness for C5 (amended) at `moteParentChange` (old parent 2 holds
one cell, so exactly one cell is requested from parent 1). -/
theorem msf_parent_change_add_count_witness :
    msf_action_parent_change_op moteParentChange =
      some (MsfParentChangeOp.addTo 1 1) :=
  ((msf_parent_change_add_count moteParentChange 1 rfl (by decide)).2 2 rfl).1 1 rfl

/-- C6 counterexample: with `backoffMinExp = 3` the broadcast backoff
reset leaves the exponent at the hardcoded `2 - 1 = 1`, not at
`backoffMinExp - 1 = 2` — so not every backoff reset sets the affected
exponent to `backoffMinExp - 1`. -/
theorem broadcast_backoff_reset_counterexample :
    (tsch_resetBroadcastBackoff backoff0).backoffBroadcastExponent = 1 ∧
    settingsExp3.backoffMinExp - 1 = 2 ∧ (1 : Int) ≠ 2 := by
  refine ⟨rfl, by decide, by decide⟩

/-- C6 (amended): every backoff reset zeroes the affected backoff
counter; a per-neighbor reset sets that neighbor's exponent to
`backoffMinExp - 1`, while a broadcast reset sets the broadcast exponent
to the hardcoded `2 - 1 = 1`. The `radio_txDone` dispatch on a
successful ACK resets the per-neighbor generator for a SHARED cell with
a unicast peer, and the broadcast generator for a SHARED cell with the
broadcast peer or a TX cell whose queue has drained. -/
theorem backoff_reset_values (settings : Settings) (s : BackoffState) (neigh : Nat)
    (emptied : Bool) :
    (tsch_resetBackoffPerNeigh settings s neigh).backoffPerNeigh neigh = 0 ∧
    (tsch_resetBackoffPerNeigh settings s neigh).backoffExponentPerNeigh neigh =
      settings.backoffMinExp - 1 ∧
    (tsch_resetBroadcastBackoff s).backoffBroadcast = 0 ∧
    (tsch_resetBroadcastBackoff s).backoffBroadcastExponent = 1 ∧
    radio_txDone_backoffReset settings s Dir.shared (Peer.uni neigh) emptied =
      tsch_resetBackoffPerNeigh settings s neigh ∧
    radio_txDone_backoffReset settings s Dir.shared Peer.broadcast emptied =
      tsch_resetBroadcastBackoff s ∧
    radio_txDone_backoffReset settings s Dir.tx (Peer.uni neigh) true =
      tsch_resetBroadcastBackoff s ∧
    radio_txDone_backoffReset settings s Dir.tx (Peer.uni neigh) false = s := by
  refine ⟨by simp [tsch_resetBackoffPerNeigh],
    by simp [tsch_resetBackoffPerNeigh], rfl, rfl, ?_, ?_, ?_, ?_⟩
  · simp [radio_txDone_backoffReset]
  · simp [radio_txDone_backoffReset]
  · simp [radio_txDone_backoffReset]
  · simp [radio_txDone_backoffReset]

theorem ratFloor_eq_intFloor (q : ℚ) : Rat.floor q = ⌊q⌋ := by
  rw [Rat.floor_def', ← Rat.floor_def]

/-- C3 counterexample: with a single TX cell of observed PDR `1/200000`
(nonzero, but below the source's `0.00001` guard) the code returns
`MSF_DEFAULT_SIXTOP_TIMEOUT = 15`, while the claim's formula — which
falls back to the default only for a mean PDR of exactly zero —
prescribes `ceil((101 * 0.01 / 1) * 200000 * 5) = 1010000`. -/
theorem msf_timeout_epsilon_counterexample :
    msf_get_sixtop_timeout moteTinyPdr 1 = some 15 ∧
    msf_get_sixtop_timeout_claim moteTinyPdr 1 = 1010000 ∧
    (sixtopTimeoutCellPDRs moteTinyPdr 1).length = 1 ∧
    (sixtopTimeoutCellPDRs moteTinyPdr 1).sum = 1 / 200000 ∧
    ((1 : ℚ) / 200000 ≠ 0) ∧ ((15 : ℚ) ≠ 1010000) := by
  have hp : sixtopTimeoutCellPDRs moteTinyPdr 1 = [(1 : ℚ) / 200000] := by
    norm_num [sixtopTimeoutCellPDRs, moteTinyPdr, cellLowPdr, getCellPDR, NUM_SUFFICIENT_TX]
  refine ⟨?_, ?_, by simp [hp], by simp [hp], by norm_num, by norm_num⟩
  · simp only [msf_get_sixtop_timeout, hp]
    norm_num [MSF_DEFAULT_SIXTOP_TIMEOUT]
  · simp only [msf_get_sixtop_timeout_claim, hp]
    rw [if_neg (by norm_num)]
    rw [ratCeil_eq_ceil]
    norm_num [moteTinyPdr, settings0, MSF_6PTIMEOUT_SEC_FACTOR]

/-- C3 (amended): for every mote and neighbor, `_msf_get_sixtop_timeout`
returns the default timeout 15 when there are no TX/SHARED cells to the
neighbor, and also whenever the mean of their per-cell PDRs is below
`0.00001` (every mean in that band, not only a mean of exactly zero, as
the original claim stated); when the mean is at least `0.00001` — and
within the code's asserted bound of 1 — it returns
`ceil((slotframeLength·slotDuration / N) · (1/meanCellPDR) · factor)`. -/
theorem msf_timeout_matches_claim (m : Mote) (nb : Nat) :
    ((sixtopTimeoutCellPDRs m nb).length = 0 →
      msf_get_sixtop_timeout m nb = some MSF_DEFAULT_SIXTOP_TIMEOUT) ∧
    ((sixtopTimeoutCellPDRs m nb).length ≠ 0 →
      (sixtopTimeoutCellPDRs m nb).sum /
          ((sixtopTimeoutCellPDRs m nb).length : ℚ) < 1 / 100000 →
      msf_get_sixtop_timeout m nb = some MSF_DEFAULT_SIXTOP_TIMEOUT) ∧
    ((sixtopTimeoutCellPDRs m nb).length ≠ 0 →
      1 / 100000 ≤ (sixtopTimeoutCellPDRs m nb).sum /
        ((sixtopTimeoutCellPDRs m nb).length : ℚ) →
      (sixtopTimeoutCellPDRs m nb).sum /
        ((sixtopTimeoutCellPDRs m nb).length : ℚ) ≤ 1 →
      msf_get_sixtop_timeout m nb =
        some ((ratCeil (((m.settings.slotframeLength : ℚ) * m.settings.slotDuration /
          ((sixtopTimeoutCellPDRs m nb).length : ℚ)) *
          (1 / ((sixtopTimeoutCellPDRs m nb).sum /
            ((sixtopTimeoutCellPDRs m nb).length : ℚ))) *
          MSF_6PTIMEOUT_SEC_FACTOR) : ℚ))) := by
  refine ⟨?_, ?_, ?_⟩
  · intro hlen
    simp [msf_get_sixtop_timeout, hlen]
  · intro hlen hlt
    have hpos : 0 < (sixtopTimeoutCellPDRs m nb).length := Nat.pos_of_ne_zero hlen
    simp only [msf_get_sixtop_timeout]
    rw [if_pos hpos, if_pos hlt]
  · intro hlen hge hub
    have hpos : 0 < (sixtopTimeoutCellPDRs m nb).length := Nat.pos_of_ne_zero hlen
    have hnlt : ¬((sixtopTimeoutCellPDRs m nb).sum /
        ((sixtopTimeoutCellPDRs m nb).length : ℚ) < 1 / 100000) :=
      not_lt.mpr hge
    simp only [msf_get_sixtop_timeout]
    rw [if_pos hpos, if_neg hnlt, if_pos hub]

/-- Witness for C3 (amended): at `moteTinyPdr` the mean observed PDR is
`1/200000` — inside the band `(0, 0.00001)` — and the default 15 is
returned; at `moteEtx` the mean is `1/2` and the ceiling formula is
returned. -/
theorem msf_timeout_matches_claim_witness :
    msf_get_sixtop_timeout moteTinyPdr 1 = some MSF_DEFAULT_SIXTOP_TIMEOUT ∧
    msf_get_sixtop_timeout moteEtx 1 =
      some ((ratCeil (((moteEtx.settings.slotframeLength : ℚ) *
        moteEtx.settings.slotDuration /
        ((sixtopTimeoutCellPDRs moteEtx 1).length : ℚ)) *
        (1 / ((sixtopTimeoutCellPDRs moteEtx 1).sum /
          ((sixtopTimeoutCellPDRs moteEtx 1).length : ℚ))) *
        MSF_6PTIMEOUT_SEC_FACTOR) : ℚ)) :=
  ⟨(msf_timeout_matches_claim moteTinyPdr 1).2.1
    (by norm_num [sixtopTimeoutCellPDRs, moteTinyPdr, cellLowPdr, getCellPDR,
      NUM_SUFFICIENT_TX])
    (by norm_num [sixtopTimeoutCellPDRs, moteTinyPdr, cellLowPdr, getCellPDR,
      NUM_SUFFICIENT_TX]),
   (msf_timeout_matches_claim moteEtx 1).2.2
    (by norm_num [sixtopTimeoutCellPDRs, moteEtx, cellHalf, getCellPDR,
      NUM_SUFFICIENT_TX])
    (by norm_num [sixtopTimeoutCellPDRs, moteEtx, cellHalf, getCellPDR,
      NUM_SUFFICIENT_TX])
    (by norm_num [sixtopTimeoutCellPDRs, moteEtx, cellHalf, getCellPDR,
      NUM_SUFFICIENT_TX])⟩

/-- C4 counterexample: neighbor 1 has static link PDR 1 and a single TX
cell with 20 observed transmissions (≥ `NUM_SUFFICIENT_TX`), 10 of them
ACKed. The observed ratio is `20/10 = 2`, but `_estimateETX` returns
`(10 + 20) / (floor(1·10) + 10) = 3/2`: the static-PDR pseudo-counts are
still blended in after the threshold, so the claimed regime split does
not hold. -/
theorem estimateETX_counterexample :
    estimateETX moteEtx 1 = some (3 / 2) ∧
    NUM_SUFFICIENT_TX ≤ cellHalf.numTx ∧
    (cellHalf.numTx : ℚ) / (cellHalf.numTxAck : ℚ) = 2 ∧
    ((3 : ℚ) / 2 ≠ 2) := by
  refine ⟨?_, by decide, by norm_num [cellHalf], by norm_num⟩
  have hc : etxCells moteEtx 1 = [cellHalf] := by
    simp [etxCells, moteEtx, cellHalf]
  simp only [estimateETX, hc]
  rw [show getPDR moteEtx 1 = 1 from rfl]
  rw [ratFloor_eq_intFloor]
  norm_num [NUM_SUFFICIENT_TX, cellHalf]

/-- C4 (amended): the ETX estimate used for rank computation is the
blend `(NUM_SUFFICIENT_TX + Σ numTx) / (floor(pdr·NUM_SUFFICIENT_TX) +
Σ numTxAck)` over the TX/SHARED cells to the neighbor — the static link
PDR contributes `NUM_SUFFICIENT_TX` pseudo-transmissions in every
regime, and the observed counters contribute from the first
transmission on (there is no exclusive threshold split); the estimate is
unavailable exactly when the blended ACK count is zero, and
`_rpl_calcRankIncrease` maps an available nonzero estimate `e` to
`int((3e - 2) * RPL_MIN_HOP_RANK_INCREASE)`. -/
theorem estimateETX_prior_blend (m : Mote) (nb : Nat) :
    (Rat.floor (getPDR m nb * (NUM_SUFFICIENT_TX : ℚ)) +
        ((etxCells m nb).map (fun c => (c.numTxAck : ℤ))).sum = 0 →
      estimateETX m nb = none) ∧
    (Rat.floor (getPDR m nb * (NUM_SUFFICIENT_TX : ℚ)) +
        ((etxCells m nb).map (fun c => (c.numTxAck : ℤ))).sum ≠ 0 →
      estimateETX m nb = some
        ((((NUM_SUFFICIENT_TX : ℤ) +
            ((etxCells m nb).map (fun c => (c.numTx : ℤ))).sum : ℤ) : ℚ) /
         ((Rat.floor (getPDR m nb * (NUM_SUFFICIENT_TX : ℚ)) +
            ((etxCells m nb).map (fun c => (c.numTxAck : ℤ))).sum : ℚ)))) ∧
    (∀ e, estimateETX m nb = some e → e ≠ 0 →
      rpl_calcRankIncrease m nb =
        some (ratTrunc ((3 * e - 2) * (RPL_MIN_HOP_RANK_INCREASE : ℚ)))) := by
  refine ⟨?_, ?_, ?_⟩
  · intro h0
    simp [estimateETX, h0]
  · intro hne
    simp [estimateETX, hne]
  · intro e he hz
    simp [rpl_calcRankIncrease, he, hz]

/-- Witness for C4 (amended) at `moteEtx`: the blended denominator is
`floor(1·10) + 10 = 20 ≠ 0`, so the blended estimate is returned. -/
theorem estimateETX_prior_blend_witness :
    estimateETX moteEtx 1 = some
      ((((NUM_SUFFICIENT_TX : ℤ) +
          ((etxCells moteEtx 1).map (fun c => (c.numTx : ℤ))).sum : ℤ) : ℚ) /
       ((Rat.floor (getPDR moteEtx 1 * (NUM_SUFFICIENT_TX : ℚ)) +
          ((etxCells moteEtx 1).map (fun c => (c.numTxAck : ℤ))).sum : ℚ))) :=
  (estimateETX_prior_blend moteEtx 1).2.1 (by
    have hc : etxCells moteEtx 1 = [cellHalf] := by
      simp [etxCells, moteEtx, cellHalf]
    rw [hc, show getPDR moteEtx 1 = 1 from rfl, ratFloor_eq_intFloor]
    norm_num [NUM_SUFFICIENT_TX, cellHalf])

/-! ### Structural lemmas on the worst-cell ordering -/

theorem flatMap_perm_congr {α β : Type} (xs : List α) (f g : α → List β)
    (h : ∀ x ∈ xs, List.Perm (f x) (g x)) :
    List.Perm (xs.flatMap f) (xs.flatMap g) := by
  induction xs with
  | nil => simp
  | cons a t ih =>
    simp only [List.flatMap_cons]
    exact (h a (by simp)).append (ih (fun x hx => h x (by simp [hx])))

theorem flatMap_congr_mem {α β : Type} (xs : List α) (f g : α → List β)
    (h : ∀ x ∈ xs, f x = g x) : xs.flatMap f = xs.flatMap g := by
  induction xs with
  | nil => rfl
  | cons a t ih =>
    simp only [List.flatMap_cons]
    rw [h a (by simp), ih (fun x hx => h x (by simp [hx]))]

/-- Splitting a list into its per-key filter blocks, one block per
distinct key, is a permutation of the list. -/
theorem flatMap_filter_key_perm :
    ∀ (keys : List ℚ) (l : List RemovalEntry), keys.Nodup →
      (∀ a ∈ l, a.pdr ∈ keys) →
      List.Perm (keys.flatMap (fun k => l.filter (fun e => e.pdr = k))) l := by
  intro keys
  induction keys with
  | nil =>
    intro l _ hcov
    have hl : l = [] := by
      cases l with
      | nil => rfl
      | cons a t => exact absurd (hcov a (by simp)) (by simp)
    simp [hl]
  | cons k ks ih =>
    intro l hnd hcov
    have hknotin : k ∉ ks := (List.nodup_cons.mp hnd).1
    have hksnd : ks.Nodup := (List.nodup_cons.mp hnd).2
    rw [List.flatMap_cons]
    have hfg : ks.flatMap (fun k2 => l.filter (fun e => e.pdr = k2)) =
        ks.flatMap (fun k2 =>
          (l.filter (fun e => !decide (e.pdr = k))).filter (fun e => e.pdr = k2)) := by
      apply flatMap_congr_mem
      intro k2 hk2
      have hne : k2 ≠ k := fun h => hknotin (h ▸ hk2)
      rw [List.filter_filter]
      apply List.filter_congr
      intro e _
      by_cases h2 : e.pdr = k2
      · have h3 : ¬e.pdr = k := fun h => hne (h2 ▸ h ▸ rfl)
        simp [h2, h3, hne]
      · simp [h2]
    rw [hfg]
    have hcov2 : ∀ a ∈ l.filter (fun e => !decide (e.pdr = k)), a.pdr ∈ ks := by
      intro a ha
      have hmem := (List.mem_filter.mp ha).1
      have hnk : ¬a.pdr = k := by
        have := (List.mem_filter.mp ha).2
        simpa using this
      rcases List.mem_cons.mp (hcov a hmem) with h | h
      · exact absurd h hnk
      · exact h
    have hperm2 := ih (l.filter (fun e => !decide (e.pdr = k))) hksnd hcov2
    exact ((List.Perm.refl (l.filter (fun e => e.pdr = k))).append hperm2).trans
      (List.filter_append_perm (fun e => decide (e.pdr = k)) l)

theorem pdrKeys_nodup (l : List RemovalEntry) : (pdrKeys l).Nodup :=
  ((List.perm_insertionSort _ _).nodup_iff).mpr (List.nodup_dedup _)

theorem mem_pdrKeys (l : List RemovalEntry) (a : RemovalEntry) (ha : a ∈ l) :
    a.pdr ∈ pdrKeys l := by
  unfold pdrKeys
  rw [List.mem_insertionSort, List.mem_dedup]
  exact List.mem_map_of_mem _ ha

/-- The worst-cell ordering is a permutation of the candidate list. -/
theorem worstCellOrdering_perm (theo : ℚ) (l : List RemovalEntry) :
    List.Perm (worstCellOrdering theo l) l := by
  unfold worstCellOrdering
  have h1 : List.Perm ((pdrKeys l).flatMap (fun k =>
      if k < theo then List.insertionSort numTxGe (l.filter (fun e => e.pdr = k))
      else List.insertionSort numTxLe (l.filter (fun e => e.pdr = k))))
      ((pdrKeys l).flatMap (fun k => l.filter (fun e => e.pdr = k))) := by
    apply flatMap_perm_congr
    intro k _
    by_cases h : k < theo
    · simp only [if_pos h]
      exact List.perm_insertionSort _ _
    · simp only [if_neg h]
      exact List.perm_insertionSort _ _
  exact h1.trans
    (flatMap_filter_key_perm (pdrKeys l) l (pdrKeys_nodup l) (fun a ha => mem_pdrKeys l a ha))

theorem pairwise_flatMap_blocks (R : RemovalEntry → RemovalEntry → Prop)
    (keys : List ℚ) (f : ℚ → List RemovalEntry)
    (hk : keys.Pairwise (· < ·))
    (hval : ∀ k, ∀ a ∈ f k, a.pdr = k)
    (hblk : ∀ k, (f k).Pairwise R)
    (hcross : ∀ a b, a.pdr < b.pdr → R a b) :
    (keys.flatMap f).Pairwise R := by
  induction keys with
  | nil => simp
  | cons k ks ih =>
    rw [List.flatMap_cons, List.pairwise_append]
    refine ⟨hblk k, ih (List.Pairwise.of_cons hk), ?_⟩
    intro a ha b hb
    obtain ⟨k2, hk2, hbk2⟩ := List.mem_flatMap.mp hb
    have h1 := hval k a ha
    have h2 := hval k2 b hbk2
    have hlt : k < k2 := (List.pairwise_cons.mp hk).1 k2 hk2
    exact hcross a b (by rw [h1, h2]; exact hlt)

theorem mem_block_pdr (theo k : ℚ) (l : List RemovalEntry) (a : RemovalEntry)
    (ha : a ∈ (if k < theo then List.insertionSort numTxGe (l.filter (fun e => e.pdr = k))
      else List.insertionSort numTxLe (l.filter (fun e => e.pdr = k)))) :
    a.pdr = k := by
  by_cases h : k < theo
  · rw [if_pos h, List.mem_insertionSort] at ha
    simpa using (List.mem_filter.mp ha).2
  · rw [if_neg h, List.mem_insertionSort] at ha
    simpa using (List.mem_filter.mp ha).2

theorem pairwise_block (theo k : ℚ) (l : List RemovalEntry) :
    (if k < theo then List.insertionSort numTxGe (l.filter (fun e => e.pdr = k))
      else List.insertionSort numTxLe (l.filter (fun e => e.pdr = k))).Pairwise
      (worstOrderRel theo) := by
  by_cases h : k < theo
  · simp only [if_pos h]
    have hs : (List.insertionSort numTxGe (l.filter (fun e => e.pdr = k))).Pairwise numTxGe :=
      List.sorted_insertionSort numTxGe _
    refine hs.imp_of_mem ?_
    intro a b ha hb hab
    have hak : a.pdr = k := by
      rw [List.mem_insertionSort] at ha
      simpa using (List.mem_filter.mp ha).2
    have hbk : b.pdr = k := by
      rw [List.mem_insertionSort] at hb
      simpa using (List.mem_filter.mp hb).2
    exact Or.inr ⟨hak.trans hbk.symm, Or.inl ⟨hak ▸ h, hab⟩⟩
  · simp only [if_neg h]
    have hs : (List.insertionSort numTxLe (l.filter (fun e => e.pdr = k))).Pairwise numTxLe :=
      List.sorted_insertionSort numTxLe _
    refine hs.imp_of_mem ?_
    intro a b ha hb hab
    have hak : a.pdr = k := by
      rw [List.mem_insertionSort] at ha
      simpa using (List.mem_filter.mp ha).2
    have hbk : b.pdr = k := by
      rw [List.mem_insertionSort] at hb
      simpa using (List.mem_filter.mp hb).2
    exact Or.inr ⟨hak.trans hbk.symm, Or.inr ⟨hak ▸ not_lt.mp h, hab⟩⟩

theorem pdrKeys_sorted_lt (l : List RemovalEntry) : (pdrKeys l).Pairwise (· < ·) :=
  List.Sorted.lt_of_le (List.sorted_insertionSort _ _) (pdrKeys_nodup l)

/-- The worst-cell ordering realizes `worstOrderRel`: ascending observed
PDR between groups, numTx descending inside below-theoretical groups and
ascending inside at-or-above groups. -/
theorem worstCellOrdering_pairwise (theo : ℚ) (l : List RemovalEntry) :
    (worstCellOrdering theo l).Pairwise (worstOrderRel theo) := by
  unfold worstCellOrdering
  apply pairwise_flatMap_blocks (worstOrderRel theo) (pdrKeys l) _ (pdrKeys_sorted_lt l)
  · intro k a ha
    exact mem_block_pdr theo k l a ha
  · intro k
    exact pairwise_block theo k l
  · intro a b hab
    exact Or.inl hab

/-- C7 counterexample: towards neighbor 5 (theoretical link PDR 1/2) the
mote has two SHARED cells, both with observed PDR 1 (at or above the
theoretical value): ts 1 with numTx = 20 and ts 2 with numTx = 10. The
claim's policy ("within each group the cell with higher numTx is
preferred") would remove ts 1 first, but the code sorts an
at-or-above-theoretical group by ascending numTx and removes ts 2. -/
theorem sixtop_removeCells_worst_counterexample :
    sixtop_removeCells_worst moteRemove 5 1 = some [2] ∧
    removeCandidates moteRemove 5 =
      [⟨1, 20, 20, 1⟩, ⟨2, 10, 10, 1⟩] ∧
    getPDR moteRemove 5 ≤ 1 ∧
    (10 : Nat) < 20 ∧ (2 : Nat) ≠ 1 := by
  have hcand : removeCandidates moteRemove 5 = [⟨1, 20, 20, 1⟩, ⟨2, 10, 10, 1⟩] := by
    norm_num [removeCandidates, moteRemove, cellHiTx, cellLoTx, getCellPDR, NUM_SUFFICIENT_TX]
  have hkeys : pdrKeys [(⟨1, 20, 20, 1⟩ : RemovalEntry), ⟨2, 10, 10, 1⟩] = [1] := by
    norm_num [pdrKeys, List.dedup_cons_of_mem, List.insertionSort]
  have htheo : ¬((1 : ℚ) < getPDR moteRemove 5) := by
    norm_num [getPDR, moteRemove]
  have hord : worstCellOrdering (getPDR moteRemove 5)
      [(⟨1, 20, 20, 1⟩ : RemovalEntry), ⟨2, 10, 10, 1⟩] =
      [⟨2, 10, 10, 1⟩, ⟨1, 20, 20, 1⟩] := by
    rw [worstCellOrdering, hkeys]
    rw [List.flatMap_cons]
    rw [if_neg htheo]
    norm_num [List.insertionSort, List.orderedInsert, numTxLe]
  refine ⟨?_, hcand, by norm_num [getPDR, moteRemove], by norm_num, by norm_num⟩
  rw [sixtop_removeCells_worst, hcand, hord]
  rfl

/-- C7 (amended): with `sixtopRemoveRandomCell` unset, the removed
timeslots are the first `numCellsToRemove` of an ordering of the
candidate cells (a permutation of them) in which groups of equal
observed per-cell PDR appear in ascending PDR order — so every cell
observed below the theoretical link PDR precedes every cell at or above
it — and, within a group of equal observed PDR, the cell with the
higher `numTx` is preferred only for below-theoretical groups; a group
at or above the theoretical PDR is ordered by ascending `numTx`
instead. -/
theorem sixtop_removeCells_worst_policy (m : Mote) (nb n : Nat) (tsl : List Nat)
    (h : sixtop_removeCells_worst m nb n = some tsl) :
    List.Perm (worstCellOrdering (getPDR m nb) (removeCandidates m nb))
      (removeCandidates m nb) ∧
    (worstCellOrdering (getPDR m nb) (removeCandidates m nb)).Pairwise
      (worstOrderRel (getPDR m nb)) ∧
    tsl = ((worstCellOrdering (getPDR m nb) (removeCandidates m nb)).take n).map
      RemovalEntry.ts ∧
    tsl.length = n := by
  refine ⟨worstCellOrdering_perm _ _, worstCellOrdering_pairwise _ _, ?_, ?_⟩
  · simp only [sixtop_removeCells_worst] at h
    by_cases hl : (((worstCellOrdering (getPDR m nb) (removeCandidates m nb)).take n).map
        RemovalEntry.ts).length = n
    · simp only [hl, if_pos] at h
      exact (Option.some.inj h).symm
    · rw [if_neg hl] at h
      exact Option.noConfusion h
  · simp only [sixtop_removeCells_worst] at h
    by_cases hl : (((worstCellOrdering (getPDR m nb) (removeCandidates m nb)).take n).map
        RemovalEntry.ts).length = n
    · simp only [hl, if_pos] at h
      rw [← Option.some.inj h]
      exact hl
    · rw [if_neg hl] at h
      exact Option.noConfusion h

/-- Witness for C7 (amended) at `moteRemove`. -/
theorem sixtop_removeCells_worst_policy_witness :
    [2] = ((worstCellOrdering (getPDR moteRemove 5) (removeCandidates moteRemove 5)).take
      1).map RemovalEntry.ts ∧
    ([2] : List Nat).length = 1 :=
  ⟨((sixtop_removeCells_worst_policy moteRemove 5 1 [2] (by
      norm_num [sixtop_removeCells_worst, removeCandidates, moteRemove, cellHiTx, cellLoTx,
        getCellPDR, NUM_SUFFICIENT_TX, worstCellOrdering, pdrKeys, List.insertionSort,
        List.orderedInsert, numTxLe, getPDR])).2.2.1),
   ((sixtop_removeCells_worst_policy moteRemove 5 1 [2] (by
      norm_num [sixtop_removeCells_worst, removeCandidates, moteRemove, cellHiTx, cellLoTx,
        getCellPDR, NUM_SUFFICIENT_TX, worstCellOrdering, pdrKeys, List.insertionSort,
        List.orderedInsert, numTxLe, getPDR])).2.2.2)⟩

end MoteSim
